import Mathlib

/- Verification development for pgr2bq.py, the DDL-driven schema inference
and typed record extraction engine of the osm2po PgRouting SQL converter.
The Python source is shallowly embedded: Python strings become Lean
strings, OrderedDicts become association lists with overwrite-in-place
insertion, and fallible operations return Except values. -/

deriving instance DecidableEq for Except

/-- Python exception outcomes that the embedded code can produce. -/
inductive PyErr where
  | typeError
  | valueError
  | keyError
  | stopIteration
  deriving DecidableEq

/-- Python runtime values produced by the converters: None, int, float and
str. A float is kept as the raw text handed to the float builtin; the
program never computes with the numeric value, it only stores and writes
it, so the IEEE interpretation is out of scope. -/
inductive PyVal where
  | vnone
  | vint (n : Int)
  | vfloat (s : String)
  | vstr (s : String)
  deriving DecidableEq

/-- A raw cell as handed to a converter by the row parser: a string from
the csv split, the None that DictReader uses as restval for a missing
column, or the list of surplus strings stored under the restkey. -/
inductive RawCell where
  | cell (s : String)
  | restvalNone
  | restList (l : List String)
  deriving DecidableEq

/-- Python's whitespace set for str.strip and friends: space, tab,
newline, carriage return, vertical tab, form feed. -/
def pyIsSpace (c : Char) : Bool :=
  c == ' ' || c == '\t' || c == '\n' || c == '\r' || c == '\x0b' || c == '\x0c'

/-- Python str.strip on a character list. -/
def pyStripList (cs : List Char) : List Char :=
  ((cs.dropWhile pyIsSpace).reverse.dropWhile pyIsSpace).reverse

/-- Python str.strip. -/
def pyStrip (s : String) : String := ⟨pyStripList s.data⟩

/-- Python str.partition at the first space character, keeping only the
pieces before and after it, as in `field.strip().partition(" ")`. When no
space occurs the whole string is the first component. -/
def pyPartitionSpaceList : List Char → List Char × List Char
  | [] => ([], [])
  | c :: cs =>
    if c = ' ' then ([], cs)
    else
      let r := pyPartitionSpaceList cs
      (c :: r.1, r.2)

/-- Python str.partition(" "), (before, after). -/
def pyPartitionSpace (s : String) : String × String :=
  let r := pyPartitionSpaceList s.data
  (⟨r.1⟩, ⟨r.2⟩)

/-- Python str.split(",") on a character list: empty pieces are kept and
the empty string yields one empty piece. -/
def pySplitCommaList : List Char → List (List Char)
  | [] => [[]]
  | c :: cs =>
    let r := pySplitCommaList cs
    if c = ',' then [] :: r
    else
      match r with
      | [] => [[c]]
      | h :: t => (c :: h) :: t

/-- Python str.split(","). -/
def pySplitComma (s : String) : List String := (pySplitCommaList s.data).map (⟨·⟩)

/-- ASCII lower-casing, as Python str.lower acts on the ASCII keywords the
program compares against (full Unicode case mapping is not involved in
any property at issue). -/
def pyLowerChar (c : Char) : Char :=
  if 'A' ≤ c ∧ c ≤ 'Z' then Char.ofNat (c.toNat + 32) else c

/-- Python str.lower (ASCII fragment). -/
def pyLower (s : String) : String := ⟨s.data.map pyLowerChar⟩

/-- Python str.startswith. -/
def pyStartsWith (s pre : String) : Bool := pre.data.isPrefixOf s.data

/-- Value of a base-10 digit string. -/
def digitsToNat (ds : List Char) : Nat := ds.foldl (fun a c => 10 * a + (c.toNat - 48)) 0

/-- Python int(text): whitespace stripped, an optional sign, then a
nonempty run of decimal digits; anything else raises ValueError. (Python
also accepts underscores between digits and non-ASCII decimal digits;
no schema or row in scope uses them.) -/
def pythonInt (s : String) : Except PyErr Int :=
  match pyStripList s.data with
  | [] => .error .valueError
  | c :: cs =>
    let p : Int × List Char :=
      if c = '+' then (1, cs) else if c = '-' then (-1, cs) else (1, c :: cs)
    if p.2 ≠ [] ∧ p.2.all Char.isDigit then .ok (p.1 * (digitsToNat p.2 : Int))
    else .error .valueError

/-- Python repr of a string: double quotes when the text holds a single
quote but no double quote, else single quotes with the quote and the
backslash escaped. (Escapes of control characters are not modelled; no
claim exercises them.) -/
def pyReprStr (s : String) : String :=
  if s.data.contains '\'' ∧ ¬ s.data.contains '"' then
    "\"" ++ ⟨s.data.foldr (fun c acc => (if c = '\\' then ['\\', '\\'] else [c]) ++ acc) []⟩ ++ "\""
  else
    "'" ++ ⟨s.data.foldr (fun c acc =>
      (if c = '\\' then ['\\', '\\'] else if c = '\'' then ['\\', '\''] else [c]) ++ acc) []⟩ ++ "'"

/-- Python str of a list of strings, as produced when the builtin str is
applied to the restkey's surplus list. -/
def pyReprStrList (l : List String) : String :=
  "[" ++ String.intercalate ", " (l.map pyReprStr) ++ "]"

/-- The builtin str applied to a raw cell: identity on text, "None" for
None, and the list repr for a surplus list. -/
def pyStrBuiltin : RawCell → PyVal
  | .cell s => .vstr s
  | .restvalNone => .vstr "None"
  | .restList l => .vstr (pyReprStrList l)

/-- A hex digit's value, upper or lower case. -/
def hexDigitVal (c : Char) : Option Nat :=
  if '0' ≤ c ∧ c ≤ '9' then some (c.toNat - 48)
  else if 'a' ≤ c ∧ c ≤ 'f' then some (c.toNat - 87)
  else if 'A' ≤ c ∧ c ≤ 'F' then some (c.toNat - 55)
  else none

/-- Pairs of hex digits to byte values; an odd count or a non-digit fails. -/
def hexPairs : List Char → Option (List Nat)
  | [] => some []
  | [_] => none
  | a :: b :: t => do
    let x ← hexDigitVal a
    let y ← hexDigitVal b
    let r ← hexPairs t
    pure ((16 * x + y) :: r)

/-- Python bytes.fromhex: ASCII whitespace is skipped, the rest must be an
even number of hex digits, else ValueError. -/
def bytesFromHex (s : String) : Except PyErr (List Nat) :=
  match hexPairs (s.data.filter (fun c => !(pyIsSpace c))) with
  | some bs => .ok bs
  | none => .error .valueError

/-- The decoded geometry structure (a Python dict in geomet): geometry
type, coordinate payload, and the optional "meta" (SRID) and "crs"
entries, present exactly when the binary carried an SRID prefix. The
coordinate payload is kept as its raw bytes (IEEE doubles are out of
scope; no property at issue inspects coordinates). -/
structure Geom where
  gtype : String
  coordinates : List Nat
  meta : Option Nat
  crs : Option Nat
  deriving DecidableEq

/-- Little-endian byte-list value. -/
def natOfBytesLE : List Nat → Nat
  | [] => 0
  | b :: t => b + 256 * natOfBytesLE t

/-- Modelled from the spec: geomet's wkb.loads, which pgr2bq.py imports
(the geomet library is an external dependency, its source is not part of
this repository). Per spec section 4.2 the input is standard well-known
binary, optionally extended with an SRID prefix (the 0x20000000 flag in
the type word), and the decoded structure carries the SRID/CRS metadata
entries exactly when that prefix is present; a malformed or unrecognized
encoding fails. Two-dimensional Point payloads are represented — the
properties at issue depend only on hex validity, the SRID flag, and the
metadata entries, never on the geometry kind. -/
def wkbLoads (bs : List Nat) : Except PyErr Geom :=
  match bs with
  | [] => .error .valueError
  | b0 :: rest =>
    if b0 ≠ 0 ∧ b0 ≠ 1 then .error .valueError
    else if rest.length < 4 then .error .valueError
    else
      let tb := rest.take 4
      let tval := natOfBytesLE (if b0 = 1 then tb else tb.reverse)
      let hasSrid := 536870912 ≤ tval
      let base := if hasSrid then tval - 536870912 else tval
      let rest2 := rest.drop 4
      if base ≠ 1 then .error .valueError
      else if hasSrid then
        if rest2.length < 4 then .error .valueError
        else
          let sb := rest2.take 4
          let srid := natOfBytesLE (if b0 = 1 then sb else sb.reverse)
          let payload := rest2.drop 4
          if payload.length = 16 then .ok ⟨"Point", payload, some srid, some srid⟩
          else .error .valueError
      else
        if rest2.length = 16 then .ok ⟨"Point", rest2, none, none⟩
        else .error .valueError

/-- Modelled from the spec: geomet's wkt.dumps — the type keyword plus a
parenthesised coordinate list. The numeric rendering of the coordinate
bytes is abstract, and metadata still present in the structure is ignored
(WKT has no slot for it). Encoding never fails. -/
def wktDumps (g : Geom) : String :=
  g.gtype ++ " (" ++ String.intercalate " " (g.coordinates.map toString) ++ ")"

/-- geom.pop("meta"): Python dict.pop without a default raises KeyError
when the key is absent. -/
def popMeta (g : Geom) : Except PyErr Geom :=
  match g.meta with
  | some _ => .ok { g with meta := none }
  | none => .error .keyError

/-- geom.pop("crs"): as popMeta. -/
def popCrs (g : Geom) : Except PyErr Geom :=
  match g.crs with
  | some _ => .ok { g with crs := none }
  | none => .error .keyError

/-- convert_wkb_to_wkt(strip_srid) of pgr2bq.py, lines 11-19: hex decode,
wkb parse, two pops when stripping, wkt encode. -/
def convert_wkb_to_wkt (strip_srid : Bool) (wkb_hex_value : String) : Except PyErr String := do
  let bs ← bytesFromHex wkb_hex_value
  let geom ← wkbLoads bs
  let geom ← if strip_srid then do popCrs (← popMeta geom) else pure geom
  pure (wktDumps geom)

/-- The conversion callables appearing in pgr2bq.py: the builtins int,
float, str, and convert_wkb_to_wkt(strip_srid). Defunctionalised so that
FieldType values compare decidably; `run` gives each one's behaviour. -/
inductive PyConverter where
  | pyInt
  | pyFloat
  | pyStr
  | wkbToWkt (strip_srid : Bool)
  deriving DecidableEq

/-- Behaviour of each converter on a raw cell. int and float reject the
None restval and surplus lists with TypeError; float keeps the accepted
text (see PyVal); str never fails; the geometry converter runs
convert_wkb_to_wkt (bytes.fromhex on a non-string raises TypeError). -/
def PyConverter.run : PyConverter → RawCell → Except PyErr PyVal
  | .pyInt, .cell s => (pythonInt s).map .vint
  | .pyInt, _ => .error .typeError
  | .pyFloat, .cell s => .ok (.vfloat s)
  | .pyFloat, _ => .error .typeError
  | .pyStr, rc => .ok (pyStrBuiltin rc)
  | .wkbToWkt b, .cell s => (convert_wkb_to_wkt b s).map .vstr
  | .wkbToWkt _, _ => .error .typeError

/-- FieldType of pgr2bq.py, lines 22-38: a conversion callable, the avro
data type tag, and the null token (default "null"). -/
structure FieldType where
  type_converter : PyConverter
  avro_data_type : String
  null_value : String := "null"
  deriving DecidableEq

/-- FieldType.__call__, lines 28-31: the null token maps to None without
invoking the converter; everything else is handed to the converter. The
equality test is Python ==, so the non-string cells (None, surplus list)
never equal the null token string. -/
def FieldType.call (ft : FieldType) (value : RawCell) : Except PyErr PyVal :=
  if value = .cell ft.null_value then .ok .vnone
  else ft.type_converter.run value

/-- First-match association-list lookup: Python dict lookup order for the
lists built below (keys are unique in every dict the program builds). -/
def lookupFirst {κ α : Type} [DecidableEq κ] : List (κ × α) → κ → Option α
  | [], _ => none
  | p :: t, k => if p.1 = k then some p.2 else lookupFirst t k

/-- TableSchema._SQL_TABLE_TYPE_MAPPING, lines 42-47. -/
def sqlTableTypeMapping : List (String × FieldType) :=
  [("integer", ⟨.pyInt, "int", "null"⟩),
   ("bigint", ⟨.pyInt, "long", "null"⟩),
   ("character varying", ⟨.pyStr, "string", "null"⟩),
   ("double precision", ⟨.pyFloat, "double", "null"⟩)]

/-- The registry lookup used by _parse_create_table_field, line 114:
dict.get with the FieldType(str, "string") fallback. -/
def sqlTypeLookup (sql_type : String) : FieldType :=
  (lookupFirst sqlTableTypeMapping sql_type).getD ⟨.pyStr, "string", "null"⟩

/-- C6: the Type Registry is a pure, case-sensitive, exact-string lookup:
"integer" gives the base-10 int parser tagged int, "bigint" the int
parser tagged long, "character varying" the string pass-through tagged
string, "double precision" the float parser tagged double, and every
other name (including other casings) the string pass-through tagged
string; the lookup itself is total, so it never errors. -/
theorem c6_type_registry_lookup :
    sqlTypeLookup "integer" = ⟨.pyInt, "int", "null"⟩
    ∧ sqlTypeLookup "bigint" = ⟨.pyInt, "long", "null"⟩
    ∧ sqlTypeLookup "character varying" = ⟨.pyStr, "string", "null"⟩
    ∧ sqlTypeLookup "double precision" = ⟨.pyFloat, "double", "null"⟩
    ∧ ∀ s : String,
        s ∉ ["integer", "bigint", "character varying", "double precision"] →
        sqlTypeLookup s = ⟨.pyStr, "string", "null"⟩ := by
  refine ⟨rfl, rfl, rfl, rfl, ?_⟩
  intro s hs
  simp only [List.mem_cons, List.not_mem_nil, or_false, not_or] at hs
  obtain ⟨h1, h2, h3, h4⟩ := hs
  simp only [sqlTypeLookup, sqlTableTypeMapping, lookupFirst]
  rw [if_neg (fun h : "integer" = s => h1 h.symm),
    if_neg (fun h : "bigint" = s => h2 h.symm),
    if_neg (fun h : "character varying" = s => h3 h.symm),
    if_neg (fun h : "double precision" = s => h4 h.symm)]
  rfl

/-- Witness for C6 at the concrete name "Integer": a case variant of a
known type falls back to the string pass-through. -/
theorem c6_type_registry_lookup_witness :
    sqlTypeLookup "Integer" = ⟨.pyStr, "string", "null"⟩ :=
  c6_type_registry_lookup.2.2.2.2 "Integer" (by decide)

/-- States of the csv module's field scanner, as it parses one data line
of the registered "sql" dialect (line 135: skipinitialspace=True,
quotechar="'", and the defaults delimiter ",", doublequote on,
non-strict). -/
inductive CsvSt where
  | startField
  | inField
  | inQuoted
  | quoteInQuoted

/-- Prepend a character to the field currently being built (the head of
the field list). -/
def consHead (c : Char) : List (List Char) → List (List Char)
  | [] => [[c]]
  | h :: t => (c :: h) :: t

/-- The csv reader's per-character transitions for the "sql" dialect on
one data string: in startField a space is skipped (skipinitialspace), a
quote opens a quoted field, a delimiter ends an empty field; inside a
quoted field a quote moves to quoteInQuoted, from which a second quote is
a literal quote (doublequote), a delimiter ends the field, and any other
character is appended in unquoted mode (non-strict). At the end of the
data the current field is terminated, also inside an open quote. -/
def csvRun : CsvSt → List Char → List (List Char)
  | _, [] => [[]]
  | .startField, c :: cs =>
    if c = ' ' then csvRun .startField cs
    else if c = '\'' then csvRun .inQuoted cs
    else if c = ',' then [] :: csvRun .startField cs
    else consHead c (csvRun .inField cs)
  | .inField, c :: cs =>
    if c = ',' then [] :: csvRun .startField cs
    else consHead c (csvRun .inField cs)
  | .inQuoted, c :: cs =>
    if c = '\'' then csvRun .quoteInQuoted cs
    else consHead c (csvRun .inQuoted cs)
  | .quoteInQuoted, c :: cs =>
    if c = '\'' then consHead '\'' (csvRun .inQuoted cs)
    else if c = ',' then [] :: csvRun .startField cs
    else consHead c (csvRun .inField cs)

/-- The row the csv reader yields for one data string under the "sql"
dialect; an empty string is an empty row. -/
def sqlSplit (values : String) : List String :=
  match values.data with
  | [] => []
  | cs => (csvRun .startField cs).map (⟨·⟩)

/-- dict[k] = v on an ordered association list: overwrite in place when
the key is present (at its first occurrence), append otherwise — the
OrderedDict assignment the program relies on. -/
def odInsert {κ α : Type} [DecidableEq κ] : List (κ × α) → κ × α → List (κ × α)
  | [], p => [p]
  | q :: t, p => if q.1 = p.1 then (q.1, p.2) :: t else q :: odInsert t p

/-- dict.update(f): the assignments of f performed left to right. -/
def odUpdate {κ α : Type} [DecidableEq κ] (s f : List (κ × α)) : List (κ × α) :=
  f.foldl odInsert s

/-- OrderedDict(pairs): the assignments performed into an empty dict. -/
def odFromList {κ α : Type} [DecidableEq κ] (f : List (κ × α)) : List (κ × α) :=
  odUpdate [] f

/-- TableSchema, lines 41-115: the informational table name and the
ordered column dict. __init__ leaves the name None (its name parameter
is ignored by the code) and the program only ever builds it empty. -/
structure TableSchema where
  name : Option String := none
  fields : List (String × FieldType) := []
  deriving DecidableEq

/-- TableSchema.keys, lines 56-57. -/
def TableSchema.keys (s : TableSchema) : List String := s.fields.map Prod.fst

/-- TableSchema() as constructed by DDLConverter.convert, line 134. -/
def emptySchema : TableSchema := {}

/-- All splits of a list into a nonempty prefix and the rest, shortest
prefix first: the candidates a backtracking regex engine tries for a
non-greedy `.+?` group. -/
def splitsNE {α : Type} : List α → List (List α × List α)
  | [] => []
  | c :: cs => ([c], cs) :: (splitsNE cs).map (fun p => (c :: p.1, p.2))

/-- The regex of add_fields_from_create_table_ddl, line 99:
`^CREATE TABLE (?P<table_name>.+?)\((?P<fields>.+?)\)[;,]?$` applied to
one input line. Lines are taken without their trailing newline (Python's
`$` matches just before it); `.` matches anything but a newline, and the
two non-greedy groups backtrack jointly, shortest first. Returns the
(table_name, fields) groups. -/
def createTableMatch (line : String) : Option (String × String) :=
  let lit := "CREATE TABLE ".data
  if lit.isPrefixOf line.data then
    (splitsNE (line.data.drop lit.length)).findSome? fun tn =>
      if tn.1.contains '\n' then none
      else
        match tn.2 with
        | '(' :: rest =>
          (splitsNE rest).findSome? fun fs =>
            if fs.1.contains '\n' then none
            else if fs.2 = [')'] ∨ fs.2 = [')', ';'] ∨ fs.2 = [')', ','] then
              some (⟨tn.1⟩, ⟨fs.1⟩)
            else none
        | _ => none
  else none

/-- _parse_create_table_field, lines 110-115: strip, partition at the
first space character, registry lookup with the string fallback. -/
def parse_create_table_field (field : String) : String × FieldType :=
  let p := pyPartitionSpace (pyStrip field)
  (p.1, sqlTypeLookup p.2)

/-- add_fields_from_create_table_ddl, lines 97-108: on match, the comma
split of the fields group is parsed into an OrderedDict and merged into
the schema with dict.update; no match is a no-op. -/
def add_fields_from_create_table_ddl (s : TableSchema) (ddl : String) : TableSchema :=
  match createTableMatch ddl with
  | none => s
  | some m =>
    let fields := odFromList ((pySplitComma m.2).map parse_create_table_field)
    { name := some m.1, fields := odUpdate s.fields fields }

/-- Case-insensitive literal match (re.IGNORECASE over the ASCII letters
involved): consumes `lit`, given lower-case, from the front of the input
and returns the remainder. -/
def matchCI : List Char → List Char → Option (List Char)
  | [], cs => some cs
  | _ :: _, [] => none
  | l :: lt, c :: ct => if pyLowerChar c = l then matchCI lt ct else none

/-- Maximal leading run of ASCII decimal digits and the rest. -/
def takeDigits : List Char → List Char × List Char
  | [] => ([], [])
  | c :: cs =>
    if c.isDigit then
      let r := takeDigits cs
      (c :: r.1, r.2)
    else ([], c :: cs)

/-- The five capture groups of the AddGeometryColumn pattern. -/
structure GeomColMatch where
  table_name : String
  column_name : String
  srid : String
  gtype : String
  dimension : String
  deriving DecidableEq

/-- The regex of add_geometry_column_from_ddl, lines 77-89:
`^SELECT AddGeometryColumn\('(.+?)', '(.+?)', (\d+?), '(.+?)', (\d+?)\);$`
with re.IGNORECASE. Non-greedy string groups backtrack shortest-first;
each digit group is followed by a non-digit literal, so its non-greedy
match coincides with the maximal ASCII digit run. -/
def geometryColumnMatch (ddl : String) : Option GeomColMatch :=
  (matchCI "select addgeometrycolumn('".data ddl.data).bind fun r1 =>
  (splitsNE r1).findSome? fun tn =>
  if tn.1.contains '\n' then none else
  (matchCI "', '".data tn.2).bind fun r2 =>
  (splitsNE r2).findSome? fun cn =>
  if cn.1.contains '\n' then none else
  (matchCI "', ".data cn.2).bind fun r3 =>
  let d1 := takeDigits r3
  if d1.1 = [] then none else
  (matchCI ", '".data d1.2).bind fun r4 =>
  (splitsNE r4).findSome? fun ty =>
  if ty.1.contains '\n' then none else
  (matchCI "', ".data ty.2).bind fun r5 =>
  let d2 := takeDigits r5
  if d2.1 = [] then none else
  if d2.2 = ");".data then
    some ⟨⟨tn.1⟩, ⟨cn.1⟩, ⟨d1.1⟩, ⟨ty.1⟩, ⟨d2.1⟩⟩
  else none

/-- The FieldType installed for a geometry column, line 94. -/
def geometryFieldType : FieldType := ⟨.wkbToWkt true, "string", "null"⟩

/-- add_geometry_column_from_ddl, lines 76-95: on match, dict assignment
of the column name to the geometry FieldType; only the column-name group
is used. No match is a no-op. -/
def add_geometry_column_from_ddl (s : TableSchema) (ddl : String) : TableSchema :=
  match geometryColumnMatch ddl with
  | none => s
  | some m => { s with fields := odInsert s.fields (m.column_name, geometryFieldType) }

example : createTableMatch "CREATE TABLE roads(id integer, name character varying);" =
    some ("roads", "id integer, name character varying") := by decide

example : sqlSplit "1, 'Main St', 12.5" = ["1", "Main St", "12.5"] := by decide

example : geometryColumnMatch "SELECT AddGeometryColumn('roads', 'geom_way', 4326, 'LINESTRING', 2);" =
    some ⟨"roads", "geom_way", "4326", "LINESTRING", "2"⟩ := by decide

/-- A key of the dict built by DictReader: a named column, or the
restkey (Python None) that collects surplus fields. -/
inductive RecordKey where
  | col (s : String)
  | restkey
  deriving DecidableEq

/-- A parsed record: each key's typed value, in dict insertion order. -/
abbrev Record := List (RecordKey × PyVal)

/-- Structural mapM for Except: the dict comprehension of line 129
evaluates the converters left to right and aborts at the first raised
error. -/
def mapMEx {ε α β : Type} (f : α → Except ε β) : List α → Except ε (List β)
  | [] => .ok []
  | a :: t => do
    let b ← f a
    let r ← mapMEx f t
    pure (b :: r)

/-- DictReader.__next__ over the one-row input of parse_insert_values,
with fieldnames = table_schema.keys() (an OrderedDict key view) and the
default restkey None, restval None: the fieldnames and the row are
zipped into a dict; surplus row entries go, as one list, under the
restkey. When the row is SHORT, however, the padding loop subscripts
`self.fieldnames[lr:]`, and a dict key view is not subscriptable, so
Python raises TypeError. An empty row would be skipped and the one-row
stream exhausted, raising StopIteration. -/
def dictReaderNext (fieldnames : List String) (row : List String) :
    Except PyErr (List (RecordKey × RawCell)) :=
  if row = [] then .error .stopIteration
  else if fieldnames.length < row.length then
    .ok (odInsert
      (odFromList ((fieldnames.zip row).map fun p => (RecordKey.col p.1, RawCell.cell p.2)))
      (.restkey, .restList (row.drop fieldnames.length)))
  else if row.length < fieldnames.length then .error .typeError
  else .ok (odFromList ((fieldnames.zip row).map fun p => (RecordKey.col p.1, RawCell.cell p.2)))

/-- get_converter (lines 59-60) applied to one cell: dict.get on the
schema with the builtin str as default. The restkey (Python None) is
never among the string keys of the schema, so it always falls back to
the builtin str. -/
def convertCell (schema : TableSchema) : RecordKey → RawCell → Except PyErr PyVal
  | .col k, v =>
    match lookupFirst schema.fields k with
    | some ft => ft.call v
    | none => .ok (pyStrBuiltin v)
  | .restkey, v => .ok (pyStrBuiltin v)

/-- parse_insert_values, lines 124-130: csv split of the values text
under the "sql" dialect, the DictReader row dict, then the dict
comprehension applying each key's converter. -/
def parse_insert_values (schema : TableSchema) (values : String) : Except PyErr Record := do
  let d ← dictReaderNext schema.keys (sqlSplit values)
  mapMEx (fun kv => (convertCell schema kv.1 kv.2).map fun v => (kv.1, v)) d

/-- The three output writers (external collaborators). -/
inductive OutputWriter where
  | csv
  | json
  | avro
  deriving DecidableEq

/-- The writer dispatch ending DDLConverter.convert, lines 146-151:
three independent equality tests on the requested format, each invoking
one writer. There is no other branch, so the dispatch is total and
raises nothing; an unmatched format invokes no writer at all. -/
def selectWriters (output_format : String) : List OutputWriter :=
  (if output_format = "csv" then [.csv] else [])
    ++ (if output_format = "json" then [.json] else [])
    ++ (if output_format = "avro" then [.avro] else [])

/-- The spec's running example schema. -/
def roadsSchema : TableSchema :=
  add_fields_from_create_table_ddl emptySchema
    "CREATE TABLE roads(id integer, name character varying, cost double precision);"

/-- A one-column schema, for the surplus-fields scenario. -/
def idOnlySchema : TableSchema :=
  add_fields_from_create_table_ddl emptySchema "CREATE TABLE t(id integer);"

/-- A two-column schema ending in a string column, for the short-row
scenario. -/
def idNameSchema : TableSchema :=
  add_fields_from_create_table_ddl emptySchema "CREATE TABLE t(id integer, name character varying);"

example : roadsSchema.fields =
    [("id", ⟨.pyInt, "int", "null"⟩), ("name", ⟨.pyStr, "string", "null"⟩),
     ("cost", ⟨.pyFloat, "double", "null"⟩)] := by decide

example : parse_insert_values roadsSchema "1, 'Main St', 12.5" =
    .ok [(.col "id", .vint 1), (.col "name", .vstr "Main St"), (.col "cost", .vfloat "12.5")] := by
  decide

/-- C2 counterexample: with the unrecognized format "xml" the dispatch
finishes without raising anything and invokes no writer — there is no
UnrecognizedOutputFormat error anywhere in the code, so the run does not
fail and the error certainly never surfaces. -/
theorem c2_unrecognized_format_counterexample : selectWriters "xml" = [] := rfl

/-- C2 amended: a requested output format other than csv, json and avro
is silently ignored — the dispatch raises no error and invokes no
writer, so the run terminates normally and produces no output at all. -/
theorem c2_unrecognized_format_silent (fmt : String)
    (h1 : fmt ≠ "csv") (h2 : fmt ≠ "json") (h3 : fmt ≠ "avro") :
    selectWriters fmt = [] := by
  simp [selectWriters, h1, h2, h3]

/-- Witness for the amended C2 at the concrete format "parquet". -/
theorem c2_unrecognized_format_silent_witness : selectWriters "parquet" = [] :=
  c2_unrecognized_format_silent "parquet" (by decide) (by decide) (by decide)

/-- C4: a raw value equal to the column's null token yields None without
the conversion function being invoked (the result is None whatever the
converter is), conversion runs exactly on inputs different from the null
token, and the spec's scenario row (2, 'null', 3.0) against the roads
schema yields the record with id 2, name None (null), cost 3.0. -/
theorem c4_null_token :
    (∀ (c : PyConverter) (avro nullv : String),
        FieldType.call ⟨c, avro, nullv⟩ (.cell nullv) = .ok .vnone)
    ∧ (∀ (ft : FieldType) (s : String), s ≠ ft.null_value →
        FieldType.call ft (.cell s) = ft.type_converter.run (.cell s))
    ∧ parse_insert_values roadsSchema "2, 'null', 3.0" =
        .ok [(.col "id", .vint 2), (.col "name", .vnone), (.col "cost", .vfloat "3.0")] := by
  refine ⟨?_, ?_, by decide⟩
  · intro c avro nullv
    simp [FieldType.call]
  · intro ft s hs
    simp [FieldType.call, hs]

/-- Witness for C4's conversion clause at the integer FieldType and the
non-null text "7". -/
theorem c4_null_token_witness :
    FieldType.call ⟨.pyInt, "int", "null"⟩ (.cell "7") = PyConverter.pyInt.run (.cell "7") :=
  c4_null_token.2.1 ⟨.pyInt, "int", "null"⟩ "7" (by decide)

theorem odUpdate_nil {κ α : Type} [DecidableEq κ] (s : List (κ × α)) : odUpdate s [] = s := rfl

theorem odUpdate_cons {κ α : Type} [DecidableEq κ] (s : List (κ × α)) (p : κ × α)
    (f : List (κ × α)) : odUpdate s (p :: f) = odUpdate (odInsert s p) f := rfl

/-- Assignment of an absent key appends at the end. -/
theorem odInsert_of_not_mem {κ α : Type} [DecidableEq κ] {l : List (κ × α)} {p : κ × α}
    (h : p.1 ∉ l.map Prod.fst) : odInsert l p = l ++ [p] := by
  induction l with
  | nil => rfl
  | cons q t ih =>
    simp only [List.map_cons, List.mem_cons, not_or] at h
    simp only [odInsert]
    rw [if_neg (fun hh => h.1 hh.symm), ih h.2]
    rfl

/-- Updating with keys disjoint from the dict appends the update. -/
theorem odUpdate_append_of_disjoint {κ α : Type} [DecidableEq κ] {f : List (κ × α)}
    (hnd : (f.map Prod.fst).Nodup) :
    ∀ s : List (κ × α), (∀ k ∈ f.map Prod.fst, k ∉ s.map Prod.fst) → odUpdate s f = s ++ f := by
  induction f with
  | nil => intro s _; simp [odUpdate]
  | cons p f ih =>
    intro s hdisj
    simp only [List.map_cons, List.nodup_cons] at hnd
    have hp : p.1 ∉ s.map Prod.fst := hdisj p.1 (by simp)
    rw [odUpdate_cons, odInsert_of_not_mem hp, ih hnd.2]
    · simp
    · intro k hk
      have h1 : k ∉ s.map Prod.fst := hdisj k (by simp [hk])
      have h2 : k ≠ p.1 := fun he => hnd.1 (he ▸ hk)
      simp [List.map_append, h1, h2]

/-- OrderedDict(pairs) with distinct keys is the pair list itself. -/
theorem odFromList_eq_self {κ α : Type} [DecidableEq κ] {l : List (κ × α)}
    (h : (l.map Prod.fst).Nodup) : odFromList l = l := by
  have := odUpdate_append_of_disjoint h [] (by simp)
  simpa [odFromList] using this

/-- Repeating one assignment changes nothing further. -/
theorem odInsert_idem {κ α : Type} [DecidableEq κ] (l : List (κ × α)) (p : κ × α) :
    odInsert (odInsert l p) p = odInsert l p := by
  induction l with
  | nil => simp [odInsert]
  | cons q t ih =>
    by_cases h : q.1 = p.1
    · simp [odInsert, h]
    · simp [odInsert, h, ih]

theorem lookupFirst_odInsert_self {κ α : Type} [DecidableEq κ] (l : List (κ × α)) (p : κ × α) :
    lookupFirst (odInsert l p) p.1 = some p.2 := by
  induction l with
  | nil => simp [odInsert, lookupFirst]
  | cons q t ih =>
    by_cases h : q.1 = p.1
    · simp [odInsert, lookupFirst, h]
    · simp [odInsert, lookupFirst, h, ih]

theorem lookupFirst_odInsert_ne {κ α : Type} [DecidableEq κ] {l : List (κ × α)} {p : κ × α}
    {k : κ} (h : k ≠ p.1) : lookupFirst (odInsert l p) k = lookupFirst l k := by
  induction l with
  | nil => simp [odInsert, lookupFirst, Ne.symm h]
  | cons q t ih =>
    by_cases hq : q.1 = p.1
    · simp [odInsert, lookupFirst, hq, Ne.symm h]
    · by_cases hk : q.1 = k <;> simp [odInsert, lookupFirst, hq, hk, h, Ne.symm h, ih]

/-- Assigning a key its current (first-bound) value changes nothing. -/
theorem odInsert_eq_self {κ α : Type} [DecidableEq κ] {l : List (κ × α)} {p : κ × α}
    (h : lookupFirst l p.1 = some p.2) : odInsert l p = l := by
  induction l with
  | nil => simp [lookupFirst] at h
  | cons q t ih =>
    by_cases hq : q.1 = p.1
    · simp only [lookupFirst, if_pos hq, Option.some.injEq] at h
      simp only [odInsert, if_pos hq]
      rw [← h]
    · simp only [lookupFirst, if_neg hq] at h
      simp [odInsert, hq, ih h]

theorem lookupFirst_odUpdate_not_mem {κ α : Type} [DecidableEq κ] {f : List (κ × α)} {k : κ}
    (h : k ∉ f.map Prod.fst) : ∀ s, lookupFirst (odUpdate s f) k = lookupFirst s k := by
  induction f with
  | nil => intro s; rfl
  | cons p f ih =>
    intro s
    simp only [List.map_cons, List.mem_cons, not_or] at h
    rw [odUpdate_cons, ih h.2, lookupFirst_odInsert_ne h.1]

/-- dict.update with a duplicate-free update is idempotent. -/
theorem odUpdate_idem {κ α : Type} [DecidableEq κ] {f : List (κ × α)}
    (h : (f.map Prod.fst).Nodup) : ∀ s, odUpdate (odUpdate s f) f = odUpdate s f := by
  induction f with
  | nil => intro s; rfl
  | cons p f ih =>
    intro s
    simp only [List.map_cons, List.nodup_cons] at h
    rw [odUpdate_cons, odUpdate_cons]
    have hl : lookupFirst (odUpdate (odInsert s p) f) p.1 = some p.2 := by
      rw [lookupFirst_odUpdate_not_mem h.1, lookupFirst_odInsert_self]
    rw [odInsert_eq_self hl]
    exact ih h.2 (odInsert s p)

/-- Assignment of a present key keeps the key sequence unchanged. -/
theorem odInsert_keys_of_mem {κ α : Type} [DecidableEq κ] {l : List (κ × α)} {p : κ × α}
    (h : p.1 ∈ l.map Prod.fst) : (odInsert l p).map Prod.fst = l.map Prod.fst := by
  induction l with
  | nil => simp at h
  | cons q t ih =>
    by_cases hq : q.1 = p.1
    · simp [odInsert, hq]
    · have hm : p.1 ∈ t.map Prod.fst := by
        simp only [List.map_cons, List.mem_cons] at h
        exact h.resolve_left (fun hh => hq hh.symm)
      simp [odInsert, hq, ih hm]

theorem odInsert_keys_nodup {κ α : Type} [DecidableEq κ] {l : List (κ × α)} {p : κ × α}
    (h : (l.map Prod.fst).Nodup) : ((odInsert l p).map Prod.fst).Nodup := by
  by_cases hm : p.1 ∈ l.map Prod.fst
  · rw [odInsert_keys_of_mem hm]; exact h
  · rw [odInsert_of_not_mem hm, List.map_append, List.nodup_append]
    refine ⟨h, by simp, ?_⟩
    intro a ha hb
    simp only [List.map_cons, List.map_nil, List.mem_singleton] at hb
    exact hm (hb ▸ ha)

theorem odUpdate_keys_nodup {κ α : Type} [DecidableEq κ] {f : List (κ × α)} :
    ∀ {s : List (κ × α)}, (s.map Prod.fst).Nodup → ((odUpdate s f).map Prod.fst).Nodup := by
  induction f with
  | nil => intro s h; exact h
  | cons p f ih =>
    intro s h
    rw [odUpdate_cons]
    exact ih (odInsert_keys_nodup h)

/-- OrderedDict construction never produces a duplicate key. -/
theorem odFromList_keys_nodup {κ α : Type} [DecidableEq κ] (l : List (κ × α)) :
    ((odFromList l).map Prod.fst).Nodup := odUpdate_keys_nodup (by simp)

/-- With duplicate-free keys, lookup of a member's key finds its value. -/
theorem lookupFirst_mem_nodup {κ α : Type} [DecidableEq κ] {l : List (κ × α)}
    (h : (l.map Prod.fst).Nodup) {p : κ × α} (hp : p ∈ l) : lookupFirst l p.1 = some p.2 := by
  induction l with
  | nil => simp at hp
  | cons q t ih =>
    simp only [List.map_cons, List.nodup_cons] at h
    rcases List.mem_cons.mp hp with he | ht
    · subst he; simp [lookupFirst]
    · have hne : q.1 ≠ p.1 := fun hh => h.1 (hh ▸ List.mem_map_of_mem Prod.fst ht)
      simp [lookupFirst, hne, ih h.2 ht]

theorem mapMEx_map {ε α β γ : Type} (g : α → β) (f : β → Except ε γ) (l : List α) :
    mapMEx f (l.map g) = mapMEx (fun x => f (g x)) l := by
  induction l with
  | nil => rfl
  | cons a t ih => simp [mapMEx, ih]

theorem mapMEx_congr {ε α β : Type} {f g : α → Except ε β} {l : List α}
    (h : ∀ x ∈ l, f x = g x) : mapMEx f l = mapMEx g l := by
  induction l with
  | nil => rfl
  | cons a t ih =>
    simp only [mapMEx]
    rw [h a (by simp), ih (fun x hx => h x (by simp [hx]))]

/-- A successful mapMEx has one output per input, each the successful
image of its input. -/
theorem mapMEx_ok_mem {ε α β : Type} {f : α → Except ε β} :
    ∀ {l : List α} {r : List β}, mapMEx f l = .ok r →
      r.length = l.length ∧ ∀ q ∈ l.zip r, f q.1 = .ok q.2 := by
  intro l
  induction l with
  | nil =>
    intro r h
    cases h
    exact ⟨rfl, by simp⟩
  | cons a t ih =>
    intro r h
    simp only [mapMEx] at h
    cases hfa : f a with
    | error e => rw [hfa] at h; cases h
    | ok b =>
      rw [hfa] at h
      cases hmt : mapMEx f t with
      | error e => rw [hmt] at h; cases h
      | ok rt =>
        rw [hmt] at h
        cases h
        obtain ⟨hl, hg⟩ := ih hmt
        refine ⟨by simp [hl], ?_⟩
        intro q hq
        rcases List.mem_cons.mp hq with he | ht
        · subst he; exact hfa
        · exact hg q ht

/-- A successful keyed mapMEx reproduces the keys in order. -/
theorem mapMEx_keys {ε α κ β : Type} (key : α → κ) (val : α → Except ε β) :
    ∀ {l : List α} {r : List (κ × β)},
      mapMEx (fun x => (val x).map fun v => (key x, v)) l = .ok r →
      r.map Prod.fst = l.map key := by
  intro l
  induction l with
  | nil => intro r h; cases h; rfl
  | cons a t ih =>
    intro r h
    simp only [mapMEx] at h
    cases hva : val a with
    | error e => rw [hva] at h; cases h
    | ok b =>
      rw [hva] at h
      cases hmt : mapMEx (fun x => (val x).map fun v => (key x, v)) t with
      | error e => rw [hmt] at h; cases h
      | ok rt =>
        rw [hmt] at h
        cases h
        simp [ih hmt]

/-- Zipping a projected list: the projection distributes over zip. -/
theorem zip_map_fst {α β γ : Type} :
    ∀ (l : List (α × β)) (r : List γ),
      (l.map Prod.fst).zip r = (l.zip r).map (fun p => (p.1.1, p.2)) := by
  intro l
  induction l with
  | nil => intro r; rfl
  | cons a t ih =>
    intro r
    cases r with
    | nil => rfl
    | cons b rt => simp [ih]

/-- The key sequence of the zipped row dict is the fieldnames mapped into
RecordKey.col, provided the row is at least as long as the fieldnames. -/
theorem zip_row_keys {fieldnames row : List String} (h : fieldnames.length ≤ row.length) :
    (((fieldnames.zip row).map fun p => ((RecordKey.col p.1, RawCell.cell p.2) :
        RecordKey × RawCell)).map Prod.fst) = fieldnames.map RecordKey.col := by
  rw [List.map_map]
  have : ((fun p : RecordKey × RawCell => p.1) ∘
      fun p : String × String => ((RecordKey.col p.1, RawCell.cell p.2) : RecordKey × RawCell))
      = fun p : String × String => RecordKey.col p.1 := rfl
  rw [this]
  have h2 : (fun p : String × String => RecordKey.col p.1)
      = RecordKey.col ∘ Prod.fst := rfl
  rw [h2, ← List.map_map, List.map_fst_zip fieldnames row h]

/-- RecordKey.col is injective. -/
theorem recordKey_col_injective : Function.Injective RecordKey.col := by
  intro a b h
  injection h

theorem zip_row_keys_nodup {fieldnames row : List String} (h : fieldnames.length ≤ row.length)
    (hnd : fieldnames.Nodup) :
    ((((fieldnames.zip row).map fun p => ((RecordKey.col p.1, RawCell.cell p.2) :
        RecordKey × RawCell)).map Prod.fst)).Nodup := by
  rw [zip_row_keys h]
  exact hnd.map recordKey_col_injective

/-- The DictReader dict for a row of exactly the fieldnames' length. -/
theorem dictReaderNext_eq_len {fieldnames row : List String} (hne : row ≠ [])
    (hlen : row.length = fieldnames.length) (hnd : fieldnames.Nodup) :
    dictReaderNext fieldnames row =
      .ok ((fieldnames.zip row).map fun p => (RecordKey.col p.1, RawCell.cell p.2)) := by
  simp only [dictReaderNext]
  rw [if_neg hne, if_neg (by omega), if_neg (by omega)]
  exact congrArg _ (odFromList_eq_self (zip_row_keys_nodup (by omega) hnd))

/-- The DictReader dict for a long row: the zipped columns, then the
surplus under the restkey. -/
theorem dictReaderNext_long {fieldnames row : List String} (hne : row ≠ [])
    (hlt : fieldnames.length < row.length) (hnd : fieldnames.Nodup) :
    dictReaderNext fieldnames row =
      .ok (((fieldnames.zip row).map fun p => (RecordKey.col p.1, RawCell.cell p.2))
        ++ [(.restkey, .restList (row.drop fieldnames.length))]) := by
  simp only [dictReaderNext]
  rw [if_neg hne, if_pos hlt]
  rw [odFromList_eq_self (zip_row_keys_nodup (by omega) hnd)]
  rw [odInsert_of_not_mem ?hrk]
  case hrk =>
    rw [zip_row_keys (by omega)]
    intro hmem
    obtain ⟨a, _, ha⟩ := List.mem_map.mp hmem
    exact RecordKey.noConfusion ha

/-- The DictReader TypeError on a short row. -/
theorem dictReaderNext_short {fieldnames row : List String} (hne : row ≠ [])
    (hlt : row.length < fieldnames.length) :
    dictReaderNext fieldnames row = .error .typeError := by
  simp only [dictReaderNext]
  rw [if_neg hne, if_neg (by omega), if_pos hlt]

/-- C1 counterexample: the row literal "1, 2" has two fields against the
single column of idOnlySchema — a count mismatch — yet the Row Parser
raises no parse error and emits a record: the surplus field is stored
under the restkey, converted by the builtin str. The claim's universal
failure on a count mismatch is false. -/
theorem c1_count_mismatch_counterexample :
    (sqlSplit "1, 2").length ≠ idOnlySchema.fields.length
    ∧ parse_insert_values idOnlySchema "1, 2" =
        .ok [(.col "id", .vint 1), (.restkey, .vstr "['2']")] :=
  ⟨by decide, by decide⟩

/-- C1 amended: a field-count mismatch is not reported by any schema
check. A SHORT row does abort before any record is emitted — but with a
TypeError: the DictReader padding loop slices the schema's OrderedDict
key view, which is not subscriptable. A LONG row does NOT abort: the
surplus literals are gathered, as one list, under the restkey, each
column's converter (and the builtin str for the restkey) is applied, and
a record is emitted whenever those conversions succeed. -/
theorem c1_count_mismatch_behaviour (schema : TableSchema) (values : String)
    (hnd : (schema.fields.map Prod.fst).Nodup) (hne : sqlSplit values ≠ []) :
    ((sqlSplit values).length < schema.fields.length →
        parse_insert_values schema values = .error .typeError)
    ∧ (schema.fields.length < (sqlSplit values).length →
        parse_insert_values schema values =
          mapMEx (fun kv => (convertCell schema kv.1 kv.2).map fun v => (kv.1, v))
            (((schema.fields.zip (sqlSplit values)).map
                (fun p => (RecordKey.col p.1.1, RawCell.cell p.2)))
              ++ [(RecordKey.restkey, RawCell.restList
                    ((sqlSplit values).drop schema.fields.length))])) := by
  have hk : schema.keys = schema.fields.map Prod.fst := rfl
  constructor
  · intro hlt
    simp only [parse_insert_values]
    rw [dictReaderNext_short hne (by rw [hk]; simpa using hlt)]
    rfl
  · intro hlt
    simp only [parse_insert_values]
    rw [dictReaderNext_long hne (by rw [hk]; simpa using hlt) (by rw [hk]; exact hnd)]
    show mapMEx _ _ = _
    rw [hk, zip_map_fst, List.map_map, List.length_map]
    rfl

/-- Witness for the amended C1: a one-short row against the two-column
schema aborts with the TypeError before any record is emitted. -/
theorem c1_count_mismatch_behaviour_witness :
    parse_insert_values idNameSchema "1" = .error .typeError :=
  (c1_count_mismatch_behaviour idNameSchema "1" (by decide) (by decide)).1 (by decide)

/-- C9: feeding the same DDL line to either Schema Builder operation
twice yields the same schema as feeding it once; and a matched
AddGeometryColumn line assigns the geometry FieldType to its column name
with OrderedDict semantics — for a name already present the converter is
overwritten in place (the key sequence is unchanged, the name now maps
to the geometry FieldType, every other name maps as before), for an
absent name the column is appended at the end. -/
theorem c9_schema_builder_idempotent (s : TableSchema) (line : String) :
    add_fields_from_create_table_ddl (add_fields_from_create_table_ddl s line) line
        = add_fields_from_create_table_ddl s line
    ∧ add_geometry_column_from_ddl (add_geometry_column_from_ddl s line) line
        = add_geometry_column_from_ddl s line
    ∧ ∀ m, geometryColumnMatch line = some m →
        (m.column_name ∈ s.fields.map Prod.fst →
          (add_geometry_column_from_ddl s line).fields.map Prod.fst = s.fields.map Prod.fst
          ∧ lookupFirst (add_geometry_column_from_ddl s line).fields m.column_name
              = some geometryFieldType
          ∧ ∀ k, k ≠ m.column_name →
              lookupFirst (add_geometry_column_from_ddl s line).fields k
                = lookupFirst s.fields k)
        ∧ (m.column_name ∉ s.fields.map Prod.fst →
          (add_geometry_column_from_ddl s line).fields
            = s.fields ++ [(m.column_name, geometryFieldType)]) := by
  refine ⟨?_, ?_, ?_⟩
  · cases hm : createTableMatch line with
    | none => simp [add_fields_from_create_table_ddl, hm]
    | some m =>
      simp only [add_fields_from_create_table_ddl, hm]
      rw [odUpdate_idem (odFromList_keys_nodup _)]
  · cases hm : geometryColumnMatch line with
    | none => simp [add_geometry_column_from_ddl, hm]
    | some m =>
      simp only [add_geometry_column_from_ddl, hm]
      rw [odInsert_idem]
  · intro m hm
    simp only [add_geometry_column_from_ddl, hm]
    constructor
    · intro hmem
      exact ⟨odInsert_keys_of_mem hmem,
        lookupFirst_odInsert_self s.fields (m.column_name, geometryFieldType),
        fun k hk => lookupFirst_odInsert_ne hk⟩
    · intro hmem
      exact odInsert_of_not_mem hmem

/-- The geometry-column DDL line of the spec's scenario. -/
def geomLine : String := "SELECT AddGeometryColumn('roads', 'geom_way', 4326, 'LINESTRING', 2);"

/-- Witness for C9: the scenario line appends geom_way, absent from the
roads schema, at the end with the geometry FieldType. -/
theorem c9_schema_builder_idempotent_witness :
    (add_geometry_column_from_ddl roadsSchema geomLine).fields
      = roadsSchema.fields ++ [("geom_way", geometryFieldType)] :=
  ((c9_schema_builder_idempotent roadsSchema geomLine).2.2
      ⟨"roads", "geom_way", "4326", "LINESTRING", "2"⟩ (by decide)).2 (by decide)

/-- Modelled from the spec: the claim's description of the per-column
split — "each piece split at the first whitespace run into name and type
text": the name is the text of the stripped piece before its first
whitespace character, the type text the remainder with that whitespace
run removed. -/
def specFieldSplit (field : String) : String × String :=
  let t := (pyStrip field).data
  (⟨t.takeWhile (fun c => !(pyIsSpace c))⟩,
   ⟨(t.dropWhile (fun c => !(pyIsSpace c))).dropWhile pyIsSpace⟩)

/-- C7 counterexample: on `CREATE TABLE t(a  integer);` (two spaces) the
code partitions the stripped piece at the FIRST SPACE CHARACTER only, so
the type text is " integer" — which the registry does not recognize —
and the column gets the string fallback; under the claim's split "at the
first whitespace run" the type text would be "integer" and the registry
resolution would be the integer parser. The schema the code builds
therefore differs from the claim's description. -/
theorem c7_create_table_counterexample :
    (add_fields_from_create_table_ddl emptySchema "CREATE TABLE t(a  integer);").fields
        = [("a", ⟨.pyStr, "string", "null"⟩)]
    ∧ specFieldSplit "a  integer" = ("a", "integer")
    ∧ sqlTypeLookup "integer" = ⟨.pyInt, "int", "null"⟩
    ∧ (⟨.pyStr, "string", "null"⟩ : FieldType) ≠ ⟨.pyInt, "int", "null"⟩ :=
  ⟨by decide, by decide, rfl, by decide⟩

/-- C7 amended: for every line matched by the CREATE TABLE pattern,
starting from an empty schema, with the parsed column names distinct,
the schema's columns are exactly the declared ones in declared order;
each comma piece is stripped and split at its first single space
character — the name before it, the SQL type text the exact remainder —
and the converter is the Type Registry's resolution of that remainder
(so extra or non-space whitespace stays in the type text, which then
falls back to the string FieldType). -/
theorem c7_create_table_order (line tn body : String)
    (hm : createTableMatch line = some (tn, body))
    (hnd : (((pySplitComma body).map parse_create_table_field).map Prod.fst).Nodup) :
    (add_fields_from_create_table_ddl emptySchema line).fields
        = (pySplitComma body).map parse_create_table_field
    ∧ ∀ piece ∈ pySplitComma body,
        parse_create_table_field piece
          = ((pyPartitionSpace (pyStrip piece)).1,
             sqlTypeLookup (pyPartitionSpace (pyStrip piece)).2) := by
  constructor
  · simp only [add_fields_from_create_table_ddl, hm]
    rw [odFromList_eq_self hnd]
    have h0 := odUpdate_append_of_disjoint hnd ([] : List (String × FieldType)) (by simp)
    simpa [emptySchema] using h0
  · intro piece _
    rfl

/-- Witness for the amended C7 at the spec's roads schema line. -/
theorem c7_create_table_order_witness :
    (add_fields_from_create_table_ddl emptySchema
        "CREATE TABLE roads(id integer, name character varying, cost double precision);").fields
      = (pySplitComma "id integer, name character varying, cost double precision").map
          parse_create_table_field :=
  (c7_create_table_order
    "CREATE TABLE roads(id integer, name character varying, cost double precision);"
    "roads" "id integer, name character varying, cost double precision"
    (by decide) (by decide)).1

/-- C10: a line that the Conversion Driver dispatches to the table-DDL
operation because it starts, case-insensitively, with "create table",
but whose own casing is not exactly "CREATE TABLE", leaves the schema
completely unchanged — the CREATE TABLE regex has no IGNORECASE flag —
while the geometry-column pattern, which does carry IGNORECASE, matches
a fully lower-case line and changes the schema. -/
theorem c10_case_sensitive_create_table (line : String) (s : TableSchema)
    (hdisp : pyStartsWith (pyLower line) "create table" = true)
    (hcase : pyStartsWith line "CREATE TABLE" = false) :
    add_fields_from_create_table_ddl s line = s
    ∧ add_geometry_column_from_ddl emptySchema
        "select addgeometrycolumn('t', 'geom', 4326, 'POINT', 2);" ≠ emptySchema := by
  refine ⟨?_, by decide⟩
  have hpre : ("CREATE TABLE ".data.isPrefixOf line.data) = false := by
    by_contra hh
    rw [Bool.not_eq_false, List.isPrefixOf_iff_prefix] at hh
    have h2 : "CREATE TABLE".data <+: line.data :=
      List.IsPrefix.trans ⟨[' '], by decide⟩ hh
    have h3 := List.isPrefixOf_iff_prefix.mpr h2
    simp only [pyStartsWith] at hcase
    rw [h3] at hcase
    cases hcase
  have hm : createTableMatch line = none := by
    simp [createTableMatch, hpre]
  simp [add_fields_from_create_table_ddl, hm]

/-- Witness for C10 at an all-lower-case CREATE TABLE line. -/
theorem c10_case_sensitive_create_table_witness :
    add_fields_from_create_table_ddl emptySchema "create table roads(id integer);"
      = emptySchema :=
  (c10_case_sensitive_create_table "create table roads(id integer);" emptySchema
    (by decide) (by decide)).1

theorem except_bind_ok {ε α β : Type} (a : α) (f : α → Except ε β) :
    (Except.ok a >>= f) = f a := rfl

theorem except_bind_error {ε α β : Type} (e : ε) (f : α → Except ε β) :
    ((Except.error e : Except ε α) >>= f) = .error e := rfl

/-- C3: for a row whose csv field count equals the schema column count
(schema keys distinct, as in every schema the program builds), the Row
Parser evaluates exactly each column's FieldType on its positional raw
field; consequently any emitted record has exactly the schema's columns
as its keys, in schema order, and each value is None when the raw field
equals that column's null token and the converter's output otherwise. -/
theorem c3_matching_row (schema : TableSchema) (values : String)
    (hnd : (schema.fields.map Prod.fst).Nodup)
    (hne : sqlSplit values ≠ [])
    (hlen : (sqlSplit values).length = schema.fields.length) :
    parse_insert_values schema values =
      mapMEx (fun p => (FieldType.call p.1.2 (.cell p.2)).map fun v => (RecordKey.col p.1.1, v))
        (schema.fields.zip (sqlSplit values))
    ∧ ∀ rec, parse_insert_values schema values = .ok rec →
        rec.map Prod.fst = schema.fields.map (fun f => RecordKey.col f.1)
        ∧ ∀ q ∈ (schema.fields.zip (sqlSplit values)).zip rec,
            q.2.1 = RecordKey.col q.1.1.1
            ∧ (q.1.2 = q.1.1.2.null_value → q.2.2 = .vnone)
            ∧ (q.1.2 ≠ q.1.1.2.null_value →
                q.1.1.2.type_converter.run (.cell q.1.2) = .ok q.2.2) := by
  have hk : schema.keys = schema.fields.map Prod.fst := rfl
  have heq : parse_insert_values schema values =
      mapMEx (fun p => (FieldType.call p.1.2 (.cell p.2)).map fun v => (RecordKey.col p.1.1, v))
        (schema.fields.zip (sqlSplit values)) := by
    simp only [parse_insert_values]
    rw [dictReaderNext_eq_len hne (by rw [hk, List.length_map]; exact hlen)
      (by rw [hk]; exact hnd)]
    show mapMEx _ _ = _
    rw [hk, zip_map_fst, List.map_map, mapMEx_map]
    apply mapMEx_congr
    intro p hp
    have hmem : p.1 ∈ schema.fields := (List.of_mem_zip hp).1
    have hl : lookupFirst schema.fields p.1.1 = some p.1.2 := lookupFirst_mem_nodup hnd hmem
    simp only [Function.comp]
    simp [convertCell, hl]
  refine ⟨heq, ?_⟩
  intro rec hrec
  rw [heq] at hrec
  constructor
  · have hkeys := mapMEx_keys (fun p : (String × FieldType) × String => RecordKey.col p.1.1)
      (fun p => FieldType.call p.1.2 (.cell p.2)) hrec
    rw [hkeys]
    have hcomp : (schema.fields.zip (sqlSplit values)).map (fun p => RecordKey.col p.1.1)
        = ((schema.fields.zip (sqlSplit values)).map Prod.fst).map
            (fun f => RecordKey.col f.1) := by
      rw [List.map_map]; rfl
    rw [hcomp, List.map_fst_zip _ _ (le_of_eq hlen.symm)]
  · intro q hq
    obtain ⟨-, hpt⟩ := mapMEx_ok_mem hrec
    have hf := hpt q hq
    cases hc : FieldType.call q.1.1.2 (.cell q.1.2) with
    | error e => rw [hc] at hf; cases hf
    | ok v =>
      rw [hc] at hf
      have hf3 : (RecordKey.col q.1.1.1, v) = q.2 := by
        injection hf
      refine ⟨?_, ?_, ?_⟩
      · rw [← hf3]
      · intro hnull
        have hcall : FieldType.call q.1.1.2 (.cell q.1.2) = .ok .vnone := by
          simp [FieldType.call, hnull]
        have hv : v = PyVal.vnone := by
          have h2 := hc.symm.trans hcall
          injection h2
        rw [← hf3]
        exact hv
      · intro hnn
        have hne2 : RawCell.cell q.1.2 ≠ RawCell.cell q.1.1.2.null_value :=
          fun hh => hnn (RawCell.cell.inj hh)
        have hcall : FieldType.call q.1.1.2 (.cell q.1.2)
            = q.1.1.2.type_converter.run (.cell q.1.2) := by
          simp [FieldType.call, hne2]
        rw [← hf3]
        show q.1.1.2.type_converter.run (.cell q.1.2) = .ok v
        rw [← hcall]
        exact hc

/-- Witness for C3 at the spec's scenario row against the roads schema. -/
theorem c3_matching_row_witness :
    parse_insert_values roadsSchema "1, 'Main St', 12.5" =
      mapMEx (fun p => (FieldType.call p.1.2 (.cell p.2)).map fun v => (RecordKey.col p.1.1, v))
        (roadsSchema.fields.zip (sqlSplit "1, 'Main St', 12.5")) :=
  (c3_matching_row roadsSchema "1, 'Main St', 12.5" (by decide) (by decide) (by decide)).1

/-- Prepending a prefix into the current field distributes over the
field list's head. -/
theorem foldr_consHead (f l0 : List Char) (L : List (List Char)) :
    f.foldr consHead (l0 :: L) = (f ++ l0) :: L := by
  induction f with
  | nil => rfl
  | cons c t ih => simp [consHead, ih]

/-- Inside a quoted field, every character before the closing quote is
consumed into the current field. -/
theorem csvRun_inQuoted (f : List Char) (hq : '\'' ∉ f) (cs : List Char) :
    csvRun .inQuoted (f ++ '\'' :: cs) = f.foldr consHead (csvRun .quoteInQuoted cs) := by
  induction f with
  | nil => simp [csvRun]
  | cons c t ih =>
    simp only [List.mem_cons, not_or] at hq
    simp [csvRun, Ne.symm hq.1, ih hq.2]

/-- skipinitialspace: a space at the start of a field position is
dropped. -/
theorem csvRun_startField_space (cs : List Char) :
    csvRun .startField (' ' :: cs) = csvRun .startField cs := by
  simp [csvRun]

theorem sqlSplit_ne {values : String} (h : values.data ≠ []) :
    sqlSplit values = (csvRun .startField values.data).map (⟨·⟩) := by
  cases hv : values.data with
  | nil => exact absurd hv h
  | cons c cs => simp [sqlSplit, hv]

/-- C8 counterexample: the trimming part of the claim is false — the
dialect's skipinitialspace skips only the SPACE character, so a tab
(whitespace) following the delimiter stays in the raw field. -/
theorem c8_quoted_field_counterexample :
    sqlSplit "a,\tb" = ["a", "\tb"] ∧ "\tb" ≠ "b" :=
  ⟨by decide, by decide⟩

/-- C8 amended: a literal field enclosed in single quotes that contains
a comma (the quote character being the single quote) is parsed as ONE
raw field, not split at the internal comma; and a SPACE — the space
character only, not every whitespace character — immediately following
the delimiter is skipped. -/
theorem c8_quoted_field (f rest : String) (hq : '\'' ∉ f.data) (hc : ',' ∈ f.data)
    (hr : rest ≠ "") :
    sqlSplit ("'" ++ f ++ "'," ++ rest) = f :: sqlSplit rest
    ∧ sqlSplit ("'" ++ f ++ "', " ++ rest) = sqlSplit ("'" ++ f ++ "'," ++ rest) := by
  have hrd : rest.data ≠ [] := fun hh => hr (String.ext hh)
  have e1 : ("'" ++ f ++ "'," ++ rest).data = '\'' :: (f.data ++ '\'' :: ',' :: rest.data) := by
    simp
  have e2 : ("'" ++ f ++ "', " ++ rest).data
      = '\'' :: (f.data ++ '\'' :: ',' :: ' ' :: rest.data) := by
    simp
  have key : ∀ cs : List Char, csvRun .startField ('\'' :: (f.data ++ '\'' :: ',' :: cs))
      = f.data :: csvRun .startField cs := by
    intro cs
    rw [show csvRun .startField ('\'' :: (f.data ++ '\'' :: ',' :: cs))
        = csvRun .inQuoted (f.data ++ '\'' :: ',' :: cs) from rfl]
    rw [csvRun_inQuoted f.data hq (',' :: cs)]
    rw [show csvRun .quoteInQuoted (',' :: cs) = [] :: csvRun .startField cs from rfl]
    rw [foldr_consHead]
    simp
  constructor
  · rw [sqlSplit_ne (by rw [e1]; simp), e1, key rest.data, sqlSplit_ne hrd]
    rfl
  · rw [sqlSplit_ne (by rw [e2]; simp), e2, key (' ' :: rest.data),
      sqlSplit_ne (by rw [e1]; simp), e1, key rest.data, csvRun_startField_space]

/-- Witness for the amended C8: the quoted field "Main, St" with its
internal comma stays one field, and the space after the delimiter in
the spec's scenario row is skipped. -/
theorem c8_quoted_field_witness :
    sqlSplit ("'" ++ "Main, St" ++ "'," ++ "5") = "Main, St" :: sqlSplit "5"
    ∧ sqlSplit ("'" ++ "Main, St" ++ "', " ++ "5") = sqlSplit ("'" ++ "Main, St" ++ "'," ++ "5") :=
  c8_quoted_field "Main, St" "5" (by decide) (by decide) (by decide)

/-- A decoded geometry carries its meta and crs entries together: both
present (SRID prefix) or both absent. -/
theorem wkbLoads_meta_none_iff {bs : List Nat} {g : Geom} (h : wkbLoads bs = .ok g) :
    (g.meta = none ↔ g.crs = none) := by
  cases bs with
  | nil => cases h
  | cons b0 rest =>
    simp only [wkbLoads] at h
    split_ifs at h <;> cases h <;> simp

/-- C5 amended: with strip_srid true the decoder removes the SRID and
CRS entries by dict pops before the well-known-text encoding — and a
pop without a default raises KeyError on a missing key, so the decoder
succeeds exactly on well-formed hex whose geometry carries the SRID
prefix (the stripped structure is what gets encoded), while it fails on
malformed hex, on unrecognized binary encodings, AND on valid standard
well-known-binary input that lacks the SRID prefix. -/
theorem c5_strip_srid (hexs : String) :
    (∀ bs g, bytesFromHex hexs = .ok bs → wkbLoads bs = .ok g →
      (g.meta ≠ none →
        convert_wkb_to_wkt true hexs = .ok (wktDumps { g with meta := none, crs := none }))
      ∧ (g.meta = none → convert_wkb_to_wkt true hexs = .error .keyError))
    ∧ (∀ e, bytesFromHex hexs = .error e → convert_wkb_to_wkt true hexs = .error e)
    ∧ (∀ bs e, bytesFromHex hexs = .ok bs → wkbLoads bs = .error e →
        convert_wkb_to_wkt true hexs = .error e) := by
  refine ⟨?_, ?_, ?_⟩
  · intro bs g hb hg
    constructor
    · intro hm
      have hcrs : g.crs ≠ none := fun hcv => hm ((wkbLoads_meta_none_iff hg).mpr hcv)
      cases hmv : g.meta with
      | none => exact absurd hmv hm
      | some a =>
        cases hcv : g.crs with
        | none => exact absurd hcv hcrs
        | some b =>
          simp only [convert_wkb_to_wkt, hb, except_bind_ok, hg]
          simp [popMeta, popCrs, hmv, hcv, except_bind_ok]
    · intro hm
      simp only [convert_wkb_to_wkt, hb, except_bind_ok, hg]
      simp [popMeta, hm, except_bind_ok, except_bind_error]
  · intro e hb
    simp only [convert_wkb_to_wkt, hb, except_bind_error]
  · intro bs e hb hg
    simp only [convert_wkb_to_wkt, hb, except_bind_ok, hg, except_bind_error]

/-- A valid little-endian well-known-binary 2-D Point WITHOUT an SRID
prefix: endian byte 01, type word 01 00 00 00, sixteen coordinate
bytes. -/
def wkbPointHexNoSrid : String := "010100000000000000000000000000000000000000"

/-- The same point as extended WKB WITH SRID 4326: the type word carries
the 0x20000000 flag and the SRID bytes E6 10 00 00 follow it. -/
def wkbPointHexSrid : String := "0101000020E610000000000000000000000000000000000000"

/-- C5 counterexample: a hex string that is valid standard well-known
binary — it decodes to a Point — but has no SRID prefix, so the decoded
structure has no meta/crs entries, and with strip_srid true (the
default) the decoder fails with KeyError on the pop. The claim that any
valid standard WKB hex input, with or without the SRID prefix, succeeds
is therefore false. -/
theorem c5_strip_srid_counterexample :
    bytesFromHex wkbPointHexNoSrid = .ok ([1, 1, 0, 0, 0] ++ List.replicate 16 0)
    ∧ wkbLoads ([1, 1, 0, 0, 0] ++ List.replicate 16 0)
        = .ok ⟨"Point", List.replicate 16 0, none, none⟩
    ∧ convert_wkb_to_wkt true wkbPointHexNoSrid = .error .keyError :=
  ⟨by decide, by decide, by decide⟩

/-- Witness for the amended C5: the SRID-prefixed point decodes, is
stripped of its meta and crs entries, and encodes successfully. -/
theorem c5_strip_srid_witness :
    convert_wkb_to_wkt true wkbPointHexSrid
      = .ok (wktDumps ⟨"Point", List.replicate 16 0, none, none⟩) :=
  ((c5_strip_srid wkbPointHexSrid).1
      ([1, 1, 0, 0, 32, 230, 16, 0, 0] ++ List.replicate 16 0)
      ⟨"Point", List.replicate 16 0, some 4326, some 4326⟩
      (by decide) (by decide)).1 (by decide)
